import Mathlib

/-!
Shallow embedding of otclient's draw-pool batching engine
(`src/framework/graphics/drawpool.cpp`) and dynamic lighting view
(`src/client/lightview.cpp`), with theorems settling the specification
claims about merging, pruning, hashing, frame caching and light coalescing.
-/

/-- 2D integer point (otclient `Point`). -/
structure Pt where
  x : Int
  y : Int
deriving DecidableEq, Repr

/-- Modelled from the spec: the repository's `Rect` header is not in scope;
the spec only needs equality, emptiness and the size of a rectangle, so a
rectangle is a position plus a width and height, empty when a side is
non-positive. -/
structure Rct where
  x : Int
  y : Int
  w : Int
  h : Int
deriving DecidableEq, Repr

def Rct.isEmpty (r : Rct) : Bool := r.w ≤ 0 || r.h ≤ 0

def Rct.size (r : Rct) : Int × Int := (r.w, r.h)

/-- Modelled from the spec: the texture class is an external collaborator; the
spec uses only its identity, `isEmpty()`, `isOpaque()` and
`canSuperimposed()`. -/
structure Texture where
  tid : Nat
  texEmpty : Bool
  texOpaque : Bool
  texCanSuperimpose : Bool
deriving DecidableEq, Repr

/-- `texture->isOpaque()` on a possibly-null texture pointer (a null texture
never reaches this test on the paths `add` is called on; `false` is the
defined stand-in). -/
def texIsOpaque : Option Texture → Bool
  | none => false
  | some t => t.texOpaque

/-- `texture->canSuperimposed()` on a possibly-null texture pointer. -/
def texCanSuper : Option Texture → Bool
  | none => false
  | some t => t.texCanSuperimpose

/-- `Painter::DrawMode`. -/
inductive DrawMode where
  | NoneMode
  | Triangles
  | TriangleStrip
deriving DecidableEq, Repr

/-- `Pool::DrawMethodType`. -/
inductive DrawMethodType where
  | DRAW_TEXTURED_RECT
  | DRAW_UPSIDEDOWN_TEXTURED_RECT
  | DRAW_REPEATED_TEXTURED_RECT
  | DRAW_REPEATED_FILLED_RECT
  | DRAW_FILLED_RECT
  | DRAW_FILLED_TRIANGLE
  | DRAW_BOUNDING_RECT
  | DRAW_FILL_COORDS
  | DRAW_TEXTURE_COORDS
deriving DecidableEq, Repr

/-- `Pool::DrawMethod`: a tagged primitive description.  `rects` holds the
(destination, source) pair, `intValue` the line width or vertex hash, and
`dest` the optional explicit destination used for occlusion pruning (a
null `Point` in the source, an `Option` here). -/
structure DrawMethod where
  mtype : DrawMethodType
  rects : Rct × Rct := (⟨0,0,0,0⟩, ⟨0,0,0,0⟩)
  points : Pt × Pt × Pt := (⟨0,0⟩, ⟨0,0⟩, ⟨0,0⟩)
  intValue : Int := 0
  dest : Option Pt := none
deriving DecidableEq, Repr

/-- `Painter::PainterState` with the texture slot made explicit: `base`
abstracts the remaining equality-compared fields (blend mode, opacity,
clip, shader). -/
structure RenderState where
  base : Nat
  texture : Option Texture
deriving DecidableEq, Repr

/-- `Pool::DrawObject`: one render state plus its batched methods; the
cached coords buffer and the deferred action are carried as opaque ids. -/
structure DrawObject where
  state : RenderState
  coordsBuffer : Option Nat
  drawMode : DrawMode
  drawMethods : List DrawMethod
  action : Option Nat := none
deriving DecidableEq, Repr

/-- Modelled from the spec: `PoolFramed`'s header is not in scope; it owns a
running content hash, the last committed hash snapshot, the compositing
dest/src rectangles, drawability of the target and the optional hooks. -/
structure PoolFramedData where
  hash : Nat
  status : Nat
  drawable : Bool
  dest : Rct
  src : Rct
  hasBeforeDraw : Bool
  hasAfterDraw : Bool
deriving DecidableEq, Repr

/-- `Pool` / `PoolFramed`: an ordered object list, framed pools additionally
carry `PoolFramedData`. -/
structure Pool where
  objects : List DrawObject
  framed : Option PoolFramedData
deriving DecidableEq, Repr

def Pool.isFramed (p : Pool) : Bool := p.framed.isSome

/-- Modelled from the spec: `updateHash(texture, method)` folds texture
identity and method content into the running hash.  The fold is strictly
increasing in the accumulator, so updating always changes the hash. -/
def hashFold (h v : Nat) : Nat := h * 33 + v + 1

/-- Modelled from the spec: an injective-enough encoding of a method's
content for the running hash (its exact formula is irrelevant to the
claims; only "folds the method in" matters). -/
def methodCode (m : DrawMethod) : Nat :=
  (m.intValue.natAbs + m.rects.1.w.natAbs + m.rects.2.w.natAbs) + 1

def texCode : Option Texture → Nat
  | none => 0
  | some t => t.tid + 1

/-- `PoolFramed::updateHash(texture, method)` on the running hash. -/
def updateHash (h : Nat) (tex : Option Texture) (m : DrawMethod) : Nat :=
  hashFold (hashFold h (texCode tex)) (methodCode m)

/-- Folds a new primitive into a pool's hash when the pool is framed
(`if(getCurrentPool()->isFramed()) poolFramed()->updateHash(...)`). -/
def Pool.updateHashIfFramed (tex : Option Texture) (m : DrawMethod) (p : Pool) : Pool :=
  { p with framed := p.framed.map fun f => { f with hash := updateHash f.hash tex m } }

/-- Erase the first element satisfying the predicate, keep everything else
(the `for`/`erase`/`break` loop pattern of `DrawPool::add`). -/
def eraseFirst (q : DrawMethod → Bool) : List DrawMethod → List DrawMethod
  | [] => []
  | x :: xs => if q x then xs else x :: eraseFirst q xs

/-- The occlusion test of `DrawPool::add` (line 119–120):
`prevMtd.dest == method.dest && (sameState && prevMtd.rects.second == method.rects.second || texture->isOpaque() && prevObj->state.texture->canSuperimposed())`. -/
def occludes (sameState : Bool) (newTex : Option Texture) (prevTex : Option Texture)
    (m q : DrawMethod) : Bool :=
  decide (q.dest = m.dest) &&
    (sameState && decide (q.rects.2 = m.rects.2) || texIsOpaque newTex && texCanSuper prevTex)

/-- The pruning pass of `DrawPool::add`: when the new method has a non-null
explicit destination, drop the first prior method it occludes. -/
def pruneMethods (sameState : Bool) (newTex : Option Texture) (prevTex : Option Texture)
    (m : DrawMethod) (ms : List DrawMethod) : List DrawMethod :=
  if m.dest.isSome then eraseFirst (occludes sameState newTex prevTex m) ms else ms

/-- The fresh `DrawObject` pushed by `DrawPool::add` / `addRepeated`. -/
def mkObject (st : RenderState) (dm : DrawMode) (m : DrawMethod) : DrawObject :=
  { state := st, coordsBuffer := none, drawMode := dm, drawMethods := [m] }

/-- The object-list transformation of `DrawPool::add` (lines 106–135): prune
the last object's occluded method, then merge into it on equal state
(forcing triangle-list topology) or push a fresh object. -/
def addObjects (st : RenderState) (tex : Option Texture) (m : DrawMethod) (dm : DrawMode)
    (objs : List DrawObject) : List DrawObject :=
  match objs.getLast? with
  | none => objs ++ [mkObject st dm m]
  | some prev =>
      let sameState := decide (prev.state = st)
      let kept := pruneMethods sameState tex prev.state.texture m prev.drawMethods
      if prev.state = st then
        objs.dropLast ++
          [{ prev with drawMode := DrawMode.Triangles, drawMethods := kept ++ [m] }]
      else
        objs.dropLast ++ [{ prev with drawMethods := kept }, mkObject st dm m]

/-- `DrawPool::add(texture, method, drawMode)` acting on the current pool,
with the painter's current state passed explicitly as `ps`. -/
def DrawPool.add (ps : Nat) (tex : Option Texture) (m : DrawMethod) (dm : DrawMode)
    (p : Pool) : Pool :=
  let st : RenderState := { base := ps, texture := tex }
  let p1 := p.updateHashIfFramed tex m
  { p1 with objects := addObjects st tex m dm p1.objects }

/-- The object-list transformation of `DrawPool::addRepeated` (lines 84–96):
append to the first object with matching state anywhere in the list, else
push a fresh object.  It performs no hash update. -/
def addRepeatedObjects (st : RenderState) (m : DrawMethod) (dm : DrawMode) :
    List DrawObject → List DrawObject
  | [] => [mkObject st dm m]
  | o :: rest =>
      if o.state = st then { o with drawMethods := o.drawMethods ++ [m] } :: rest
      else o :: addRepeatedObjects st m dm rest

/-- `DrawPool::addRepeated(texture, method, drawMode)`. -/
def DrawPool.addRepeated (ps : Nat) (tex : Option Texture) (m : DrawMethod) (dm : DrawMode)
    (p : Pool) : Pool :=
  let st : RenderState := { base := ps, texture := tex }
  { p with objects := addRepeatedObjects st m dm p.objects }

/-- Per-call context: the multithread flag, whether the calling thread has a
thread-local current pool (`isOnThread`), the painter's current state and
the registry's global opacity. -/
structure Ctx where
  multiThread : Bool
  onThread : Bool
  painterState : Nat
  opacity : Nat
deriving DecidableEq, Repr

/-- `multiThreadEnabled() && !isOnThread()`: the cross-thread no-op guard at
the top of every public add call. -/
def Ctx.offThread (c : Ctx) : Bool := c.multiThread && !c.onThread

/-- `DrawPool::addTexturedRect(dest, texture, src, originalDest)`
(lines 276–288). -/
def DrawPool.addTexturedRect (c : Ctx) (dest : Rct) (texture : Texture) (src : Rct)
    (originalDest : Option Pt) (p : Pool) : Pool :=
  if c.offThread then p
  else if dest.isEmpty || src.isEmpty || texture.texEmpty then p
  else
    DrawPool.add c.painterState (some texture)
      { mtype := DrawMethodType.DRAW_TEXTURED_RECT, rects := (dest, src), dest := originalDest }
      DrawMode.TriangleStrip p

/-- `DrawPool::addUpsideDownTexturedRect(dest, texture, src)` (lines 290–301). -/
def DrawPool.addUpsideDownTexturedRect (c : Ctx) (dest : Rct) (texture : Texture) (src : Rct)
    (p : Pool) : Pool :=
  if c.offThread then p
  else if dest.isEmpty || src.isEmpty || texture.texEmpty then p
  else
    DrawPool.add c.painterState (some texture)
      { mtype := DrawMethodType.DRAW_UPSIDEDOWN_TEXTURED_RECT, rects := (dest, src) }
      DrawMode.TriangleStrip p

/-- `DrawPool::addRepeatedTexturedRect(dest, texture, src)` (lines 309–319). -/
def DrawPool.addRepeatedTexturedRect (c : Ctx) (dest : Rct) (texture : Texture) (src : Rct)
    (p : Pool) : Pool :=
  if c.offThread then p
  else if dest.isEmpty || src.isEmpty || texture.texEmpty then p
  else
    DrawPool.addRepeated c.painterState (some texture)
      { mtype := DrawMethodType.DRAW_REPEATED_TEXTURED_RECT, rects := (dest, src) }
      DrawMode.Triangles p

/-- `DrawPool::addRepeatedFilledRect(dest)` (lines 321–331). -/
def DrawPool.addRepeatedFilledRect (c : Ctx) (dest : Rct) (p : Pool) : Pool :=
  if c.offThread then p
  else if dest.isEmpty then p
  else
    DrawPool.addRepeated c.painterState none
      { mtype := DrawMethodType.DRAW_REPEATED_FILLED_RECT, rects := (dest, ⟨0,0,0,0⟩) }
      DrawMode.Triangles p

/-- `DrawPool::addFilledRect(dest)` (lines 333–343). -/
def DrawPool.addFilledRect (c : Ctx) (dest : Rct) (p : Pool) : Pool :=
  if c.offThread then p
  else if dest.isEmpty then p
  else
    DrawPool.add c.painterState none
      { mtype := DrawMethodType.DRAW_FILLED_RECT, rects := (dest, ⟨0,0,0,0⟩) }
      DrawMode.Triangles p

/-- `DrawPool::addFilledTriangle(a, b, c)` (lines 345–355). -/
def DrawPool.addFilledTriangle (c : Ctx) (a b d : Pt) (p : Pool) : Pool :=
  if c.offThread then p
  else if a = b || a = d || b = d then p
  else
    DrawPool.add c.painterState none
      { mtype := DrawMethodType.DRAW_FILLED_TRIANGLE, points := (a, b, d) }
      DrawMode.Triangles p

/-- `DrawPool::addBoundingRect(dest, innerLineWidth)` (lines 357–368). -/
def DrawPool.addBoundingRect (c : Ctx) (dest : Rct) (innerLineWidth : Int) (p : Pool) : Pool :=
  if c.offThread then p
  else if dest.isEmpty || innerLineWidth = 0 then p
  else
    DrawPool.add c.painterState none
      { mtype := DrawMethodType.DRAW_BOUNDING_RECT, rects := (dest, ⟨0,0,0,0⟩),
        intValue := innerLineWidth }
      DrawMode.Triangles p

/-- `DrawPool::addAction(action)` (lines 370–374): pushes an object carrying
only a deferred action, a default state and no geometry. -/
def DrawPool.addAction (c : Ctx) (actionId : Nat) (p : Pool) : Pool :=
  if c.offThread then p
  else
    { p with objects := p.objects ++
        [{ state := { base := 0, texture := none }, coordsBuffer := none,
           drawMode := DrawMode.NoneMode, drawMethods := [], action := some actionId }] }

/-- The pool enumeration of the registry (`PoolType`). -/
inductive PoolType where
  | MAP
  | LIGHT
  | UI
  | FOREGROUND
deriving DecidableEq, Repr

/-- `Painter::CompositionMode`, restricted to the values the embedded code
mentions. -/
inductive CompositionMode where
  | Normal
  | Light
deriving DecidableEq, Repr

/-- The framebuffer configuration settled by `createPoolF`. -/
structure FrameBufferConfig where
  blendDisabled : Bool
  compositionMode : CompositionMode
deriving DecidableEq, Repr

/-- `DrawPool::createPoolF(type)` (lines 71–82), kept with the source's
duplicated branch condition: `if(type == MAP) disableBlend(); else
if(type == MAP) setCompositionMode(Light);`. -/
def DrawPool.createPoolF (t : PoolType) : FrameBufferConfig :=
  let fb : FrameBufferConfig := { blendDisabled := false, compositionMode := CompositionMode.Normal }
  if t = PoolType.MAP then { fb with blendDisabled := true }
  else if t = PoolType.MAP then { fb with compositionMode := CompositionMode.Light }
  else fb

/-- One step of the end-of-frame replay/composite trace of
`DrawPool::draw` (lines 137–176). -/
inductive DrawEvent where
  | saveState
  | bind
  | replay (o : DrawObject)
  | release
  | beforeHook
  | composite (dest src : Rct)
  | afterHook
  | restoreState
deriving DecidableEq, Repr

/-- `DrawPool::draw` restricted to a single pool: framed pools with a
drawable target re-render only on hash change (`hasModification`,
modelled from the spec as hash ≠ last committed snapshot) and always
composite; every pool's object list is cleared. -/
def DrawPool.drawOne (p : Pool) : Pool × List DrawEvent :=
  match p.framed with
  | some f =>
      if f.drawable then
        let rerender := decide (¬ f.hash = f.status)
        let f1 := if rerender then { f with status := f.hash } else f
        let renderEvs :=
          if rerender then DrawEvent.bind :: p.objects.map DrawEvent.replay ++ [DrawEvent.release]
          else []
        let evs :=
          DrawEvent.saveState :: renderEvs ++
            (if f.hasBeforeDraw then [DrawEvent.beforeHook] else []) ++
            [DrawEvent.composite f.dest f.src] ++
            (if f.hasAfterDraw then [DrawEvent.afterHook] else []) ++
            [DrawEvent.restoreState]
        ({ objects := [], framed := some f1 }, evs)
      else ({ objects := [], framed := some f }, [])
  | none => ({ objects := [], framed := none }, p.objects.map DrawEvent.replay)

/-- `Light` as passed to `addLightSource`: an 8-bit color (0 marks a shadow)
and a 16-bit intensity. -/
structure Light where
  color : Nat
  intensity : Nat
deriving DecidableEq, Repr

/-- A pending `LightSource`: position, color, intensity and the global
opacity captured at insertion time (a float in the source, kept as an
opaque value here since it is only stored and replayed). -/
structure LightSource where
  pos : Pt
  color : Nat
  intensity : Nat
  opacity : Nat
deriving DecidableEq, Repr

/-- The `LightView` state: the darkness flag (modelled from the spec:
`isDark()` lives in the header and derives from the ambient light color),
the tile size, the pending sources and the enable flag of the underlying
framed pool. -/
structure LightViewState where
  dark : Bool
  tileSize : Nat
  globalLightColor : Nat
  sources : List LightSource
  poolEnabled : Bool
deriving DecidableEq, Repr

/-- `LightView::addLightSource(pos, light)` (lines 35–48): no-op unless
dark; coalesce with the trailing source on equal position and color by
keeping the larger intensity; otherwise append, capturing the registry's
current opacity. -/
def LightView.addLightSource (opacity : Nat) (pos : Pt) (l : Light)
    (s : LightViewState) : LightViewState :=
  if !s.dark then s
  else
    match s.sources.getLast? with
    | some prev =>
        if prev.pos = pos ∧ prev.color = l.color then
          { s with sources := s.sources.dropLast ++
              [{ prev with intensity := max prev.intensity l.intensity }] }
        else
          { s with sources := s.sources ++ [⟨pos, l.color, l.intensity, opacity⟩] }
    | none => { s with sources := s.sources ++ [⟨pos, l.color, l.intensity, opacity⟩] }

/-- The visible actions of `LightView::draw`'s source loop.  The float
arithmetic of the source (alpha `min(opacity, intensity/6)`, the 1.8/3.3
tile scaling) is carried symbolically in the event payloads; the light
radius keeps the source's `uint16_t` truncation. -/
inductive LightEvent where
  | use (dest src : Rct) (globalColor : Nat)
  | drawLight (pos : Pt) (radius : Nat) (color8 : Nat) (opacity intensity : Nat)
  | setBlendMax
  | flush
  | setOpacity (o : Nat)
  | drawShade (pos : Pt) (tileSize : Nat) (globalColor : Nat)
  | resetOpacity
deriving DecidableEq, Repr

/-- The source loop of `LightView::draw` (lines 60–76) with its `_clr`
flag: colored sources emit a light sprite and enable MAX blending; shadow
markers flush a pending additive batch once, then draw the shade sprite
under their captured opacity. -/
def lightLoop (tileSize globalColor : Nat) : Bool → List LightSource → List LightEvent
  | _, [] => []
  | clr, l :: rest =>
      if l.color ≠ 0 then
        LightEvent.drawLight l.pos (l.intensity * tileSize % 65536) l.color l.opacity l.intensity ::
          LightEvent.setBlendMax :: lightLoop tileSize globalColor true rest
      else
        (if clr then [LightEvent.flush] else []) ++
          LightEvent.setOpacity l.opacity ::
          LightEvent.drawShade l.pos tileSize globalColor ::
          LightEvent.resetOpacity :: lightLoop tileSize globalColor false rest

/-- `LightView::draw(dest, src)` (lines 50–79): sets the framed pool's
enable flag from the darkness test, returns early when not dark, else
binds the pool, replays the source loop and clears the sources. -/
def LightView.draw (dest src : Rct) (s : LightViewState) : LightViewState × List LightEvent :=
  let s1 := { s with poolEnabled := s.dark }
  if !s.dark then (s1, [])
  else
    ({ s1 with sources := [] },
      LightEvent.use dest src s.globalLightColor ::
        lightLoop s.tileSize s.globalLightColor true s.sources)

theorem eraseFirst_sublist (q : DrawMethod → Bool) (l : List DrawMethod) :
    List.Sublist (eraseFirst q l) l := by
  induction l with
  | nil => simp [eraseFirst]
  | cons x xs ih =>
      simp only [eraseFirst]
      split
      · exact List.sublist_cons_self x xs
      · exact List.Sublist.cons₂ x ih

theorem length_le_eraseFirst_add_one (q : DrawMethod → Bool) (l : List DrawMethod) :
    l.length ≤ (eraseFirst q l).length + 1 := by
  induction l with
  | nil => simp [eraseFirst]
  | cons x xs ih =>
      simp only [eraseFirst]
      split
      · simp
      · simpa using Nat.succ_le_succ ih

theorem eraseFirst_of_forall_not (q : DrawMethod → Bool) (l : List DrawMethod)
    (h : ∀ x ∈ l, q x = false) : eraseFirst q l = l := by
  induction l with
  | nil => rfl
  | cons x xs ih =>
      have hx := h x (List.mem_cons_self x xs)
      simp only [eraseFirst, hx]
      simp only [Bool.false_eq_true, if_false]
      rw [ih fun y hy => h y (List.mem_cons_of_mem x hy)]

theorem eraseFirst_first_match (q : DrawMethod → Bool) (l1 l2 : List DrawMethod)
    (x : DrawMethod) (h1 : ∀ y ∈ l1, q y = false) (hx : q x = true) :
    eraseFirst q (l1 ++ x :: l2) = l1 ++ l2 := by
  induction l1 with
  | nil => simp [eraseFirst, hx]
  | cons y ys ih =>
      have hy := h1 y (List.mem_cons_self y ys)
      simp only [List.cons_append, eraseFirst, hy]
      simp only [Bool.false_eq_true, if_false, List.cons_append, List.append_eq]
      rw [ih fun z hz => h1 z (List.mem_cons_of_mem y hz)]

theorem pruneMethods_sublist (s : Bool) (nt pt : Option Texture) (m : DrawMethod)
    (ms : List DrawMethod) : List.Sublist (pruneMethods s nt pt m ms) ms := by
  unfold pruneMethods
  split
  · exact eraseFirst_sublist _ ms
  · exact List.Sublist.refl ms

theorem pruneMethods_of_dest_none (s : Bool) (nt pt : Option Texture) (m : DrawMethod)
    (ms : List DrawMethod) (h : m.dest = none) : pruneMethods s nt pt m ms = ms := by
  unfold pruneMethods
  rw [h]
  rfl

theorem length_le_pruneMethods_add_one (s : Bool) (nt pt : Option Texture) (m : DrawMethod)
    (ms : List DrawMethod) : ms.length ≤ (pruneMethods s nt pt m ms).length + 1 := by
  unfold pruneMethods
  split
  · exact length_le_eraseFirst_add_one _ ms
  · omega

theorem add_objects_eq (ps : Nat) (tex : Option Texture) (m : DrawMethod) (dm : DrawMode)
    (p : Pool) :
    (DrawPool.add ps tex m dm p).objects = addObjects ⟨ps, tex⟩ tex m dm p.objects := rfl

theorem addObjects_nil (st : RenderState) (tex : Option Texture) (m : DrawMethod)
    (dm : DrawMode) : addObjects st tex m dm [] = [mkObject st dm m] := rfl

theorem addObjects_concat (st : RenderState) (tex : Option Texture) (m : DrawMethod)
    (dm : DrawMode) (l : List DrawObject) (prev : DrawObject) :
    addObjects st tex m dm (l ++ [prev]) =
      if prev.state = st then
        l ++ [{ prev with
                 drawMode := DrawMode.Triangles
                 drawMethods :=
                   pruneMethods (decide (prev.state = st)) tex prev.state.texture m
                     prev.drawMethods ++ [m] }]
      else
        l ++ [{ prev with
                 drawMethods :=
                   pruneMethods (decide (prev.state = st)) tex prev.state.texture m
                     prev.drawMethods },
              mkObject st dm m] := by
  unfold addObjects
  rw [List.getLast?_concat]
  simp only [List.dropLast_concat]

/-- C1: when the derived render state equals the state of the pool's last
DrawObject, `DrawPool::add` appends the method to that object (keeping the
prior methods in order — untouched whenever the method carries no explicit
destination), creates no new DrawObject and forces the object's topology
to triangle list; when the pool is empty or the state differs, it appends
a fresh DrawObject holding the method. -/
theorem add_merges_on_same_state_else_appends (ps : Nat) (tex : Option Texture)
    (m : DrawMethod) (dm : DrawMode) (p : Pool) :
    (∀ l prev, p.objects = l ++ [prev] → prev.state = ⟨ps, tex⟩ →
      ∃ kept, List.Sublist kept prev.drawMethods ∧
        (m.dest = none → kept = prev.drawMethods) ∧
        (DrawPool.add ps tex m dm p).objects =
          l ++ [{ prev with
                   drawMode := DrawMode.Triangles
                   drawMethods := kept ++ [m] }]) ∧
    (p.objects = [] →
      (DrawPool.add ps tex m dm p).objects = [mkObject ⟨ps, tex⟩ dm m]) ∧
    (∀ l prev, p.objects = l ++ [prev] → ¬prev.state = ⟨ps, tex⟩ →
      ∃ kept, List.Sublist kept prev.drawMethods ∧
        (m.dest = none → kept = prev.drawMethods) ∧
        (DrawPool.add ps tex m dm p).objects =
          l ++ [{ prev with drawMethods := kept }, mkObject ⟨ps, tex⟩ dm m]) := by
  refine ⟨?_, ?_, ?_⟩
  · intro l prev hl hst
    refine ⟨pruneMethods (decide (prev.state = ⟨ps, tex⟩)) tex prev.state.texture m
        prev.drawMethods,
      pruneMethods_sublist _ _ _ _ _,
      fun hd => pruneMethods_of_dest_none _ _ _ _ _ hd, ?_⟩
    rw [add_objects_eq, hl, addObjects_concat, if_pos hst]
  · intro h0
    rw [add_objects_eq, h0, addObjects_nil]
  · intro l prev hl hst
    refine ⟨pruneMethods (decide (prev.state = ⟨ps, tex⟩)) tex prev.state.texture m
        prev.drawMethods,
      pruneMethods_sublist _ _ _ _ _,
      fun hd => pruneMethods_of_dest_none _ _ _ _ _ hd, ?_⟩
    rw [add_objects_eq, hl, addObjects_concat, if_neg hst]

/-- A concrete filled-rect method used by the C1 witness. -/
def c1m0 : DrawMethod :=
  { mtype := DrawMethodType.DRAW_FILLED_RECT, rects := (⟨0,0,2,2⟩, ⟨0,0,0,0⟩) }

/-- A second concrete filled-rect method used by the C1 witness. -/
def c1m1 : DrawMethod :=
  { mtype := DrawMethodType.DRAW_FILLED_RECT, rects := (⟨1,1,2,2⟩, ⟨0,0,0,0⟩) }

/-- A pool holding one DrawObject with the untextured painter state. -/
def c1prev : DrawObject :=
  { state := ⟨0, none⟩, coordsBuffer := none, drawMode := DrawMode.Triangles,
    drawMethods := [c1m0] }

def c1pool : Pool := { objects := [c1prev], framed := none }

/-- Witness for C1: a same-state add on a concrete one-object pool. -/
theorem add_merges_on_same_state_else_appends_witness :
    ∃ kept, List.Sublist kept c1prev.drawMethods ∧
      (c1m1.dest = none → kept = c1prev.drawMethods) ∧
      (DrawPool.add 0 none c1m1 DrawMode.Triangles c1pool).objects =
        [] ++ [{ c1prev with
                  drawMode := DrawMode.Triangles
                  drawMethods := kept ++ [c1m1] }] :=
  (add_merges_on_same_state_else_appends 0 none c1m1 DrawMode.Triangles c1pool).1
    [] c1prev rfl rfl

theorem pruneMethods_of_dest_some (s : Bool) (nt pt : Option Texture) (m : DrawMethod)
    (ms : List DrawMethod) (h : m.dest.isSome = true) :
    pruneMethods s nt pt m ms = eraseFirst (occludes s nt pt m) ms := by
  unfold pruneMethods
  rw [h]
  rfl

/-- C10: one `add` call removes at most one prior DrawMethod: pruning only
touches the last DrawObject (all earlier objects are returned unchanged),
its method list loses at most one element with the rest kept in order,
and when the list decomposes around a first occluding match exactly that
match is the erased one. -/
theorem add_prunes_at_most_one_first_match (ps : Nat) (tex : Option Texture)
    (m : DrawMethod) (dm : DrawMode) (p : Pool) (l : List DrawObject) (prev : DrawObject)
    (hl : p.objects = l ++ [prev]) :
    ∃ kept, List.Sublist kept prev.drawMethods ∧
      prev.drawMethods.length ≤ kept.length + 1 ∧
      (∀ l1 x l2, m.dest.isSome = true →
        prev.drawMethods = l1 ++ x :: l2 →
        (∀ y ∈ l1,
          occludes (decide (prev.state = ⟨ps, tex⟩)) tex prev.state.texture m y = false) →
        occludes (decide (prev.state = ⟨ps, tex⟩)) tex prev.state.texture m x = true →
        kept = l1 ++ l2) ∧
      ((DrawPool.add ps tex m dm p).objects =
          l ++ [{ prev with
                   drawMode := DrawMode.Triangles
                   drawMethods := kept ++ [m] }] ∨
       (DrawPool.add ps tex m dm p).objects =
          l ++ [{ prev with drawMethods := kept }, mkObject ⟨ps, tex⟩ dm m]) := by
  refine ⟨pruneMethods (decide (prev.state = ⟨ps, tex⟩)) tex prev.state.texture m
      prev.drawMethods,
    pruneMethods_sublist _ _ _ _ _,
    length_le_pruneMethods_add_one _ _ _ _ _, ?_, ?_⟩
  · intro l1 x l2 hsome hdec hnone hx
    rw [pruneMethods_of_dest_some _ _ _ _ _ hsome, hdec,
      eraseFirst_first_match _ _ _ _ hnone hx]
  · by_cases hst : prev.state = (⟨ps, tex⟩ : RenderState)
    · left
      rw [add_objects_eq, hl, addObjects_concat, if_pos hst]
    · right
      rw [add_objects_eq, hl, addObjects_concat, if_neg hst]

/-- A non-opaque texture used by the C10 witness pool. -/
def c10tex : Texture := ⟨7, false, false, false⟩

def c10st : RenderState := ⟨0, some c10tex⟩

/-- First of two methods sharing the explicit destination `(2,2)`. -/
def c10a : DrawMethod :=
  { mtype := DrawMethodType.DRAW_TEXTURED_RECT, rects := (⟨0,0,3,3⟩, ⟨0,0,3,3⟩),
    dest := some ⟨2,2⟩ }

/-- Second method with the same explicit destination and source rect. -/
def c10b : DrawMethod :=
  { mtype := DrawMethodType.DRAW_TEXTURED_RECT, rects := (⟨1,1,3,3⟩, ⟨0,0,3,3⟩),
    dest := some ⟨2,2⟩ }

/-- The incoming method: same state, same destination, same source rect, so
both `c10a` and `c10b` satisfy the occlusion test. -/
def c10m : DrawMethod :=
  { mtype := DrawMethodType.DRAW_TEXTURED_RECT, rects := (⟨2,2,3,3⟩, ⟨0,0,3,3⟩),
    dest := some ⟨2,2⟩ }

def c10prev : DrawObject :=
  { state := c10st, coordsBuffer := none, drawMode := DrawMode.TriangleStrip,
    drawMethods := [c10a, c10b] }

def c10pool : Pool := { objects := [c10prev], framed := none }

/-- Witness for C10: on a pool whose last object holds two methods both
matching the occlusion test, the call erases only the first. -/
theorem add_prunes_at_most_one_first_match_witness :
    (∃ kept, List.Sublist kept c10prev.drawMethods ∧
      c10prev.drawMethods.length ≤ kept.length + 1 ∧
      (∀ l1 x l2, c10m.dest.isSome = true →
        c10prev.drawMethods = l1 ++ x :: l2 →
        (∀ y ∈ l1,
          occludes (decide (c10prev.state = ⟨0, some c10tex⟩)) (some c10tex)
            c10prev.state.texture c10m y = false) →
        occludes (decide (c10prev.state = ⟨0, some c10tex⟩)) (some c10tex)
          c10prev.state.texture c10m x = true →
        kept = l1 ++ l2) ∧
      ((DrawPool.add 0 (some c10tex) c10m DrawMode.TriangleStrip c10pool).objects =
          [] ++ [{ c10prev with
                    drawMode := DrawMode.Triangles
                    drawMethods := kept ++ [c10m] }] ∨
       (DrawPool.add 0 (some c10tex) c10m DrawMode.TriangleStrip c10pool).objects =
          [] ++ [{ c10prev with drawMethods := kept },
                 mkObject ⟨0, some c10tex⟩ DrawMode.TriangleStrip c10m])) ∧
    (DrawPool.add 0 (some c10tex) c10m DrawMode.TriangleStrip c10pool).objects =
      [{ c10prev with
          drawMode := DrawMode.Triangles
          drawMethods := [c10b, c10m] }] :=
  ⟨add_prunes_at_most_one_first_match 0 (some c10tex) c10m DrawMode.TriangleStrip
      c10pool [] c10prev rfl,
    by decide⟩

theorem occludes_eq_true_iff (s : Bool) (nt pt : Option Texture) (m q : DrawMethod) :
    occludes s nt pt m q = true ↔
      q.dest = m.dest ∧
        (s = true ∧ q.rects.2 = m.rects.2 ∨
         texIsOpaque nt = true ∧ texCanSuper pt = true) := by
  simp [occludes, Bool.and_eq_true, Bool.or_eq_true, decide_eq_true_iff]

/-- A non-opaque, non-superimposable texture for the C2 counterexample. -/
def c2tex : Texture := ⟨1, false, false, false⟩

def c2st : RenderState := ⟨0, some c2tex⟩

/-- Prior method: explicit destination `(1,1)`, source rect `(0,0,10,10)`. -/
def c2prior : DrawMethod :=
  { mtype := DrawMethodType.DRAW_TEXTURED_RECT, rects := (⟨0,0,4,4⟩, ⟨0,0,10,10⟩),
    dest := some ⟨1,1⟩ }

/-- New method: identical destination and state, source rect `(5,5,10,10)` —
the same size as the prior's but a different rect. -/
def c2new : DrawMethod :=
  { mtype := DrawMethodType.DRAW_TEXTURED_RECT, rects := (⟨0,0,4,4⟩, ⟨5,5,10,10⟩),
    dest := some ⟨1,1⟩ }

def c2pool : Pool :=
  { objects := [{ state := c2st, coordsBuffer := none, drawMode := DrawMode.TriangleStrip,
                  drawMethods := [c2prior] }],
    framed := none }

/-- Counterexample to C2: the new method carries an explicit destination
identical to the prior's, the render state matches and the source rect
SIZES match, yet the prior method is not removed — the pool ends up
containing both, because the code compares the full source rects, not
their sizes. -/
theorem add_prune_size_match_counterexample :
    c2new.dest.isSome = true ∧
    c2prior.dest = c2new.dest ∧
    (⟨0, some c2tex⟩ : RenderState) = c2st ∧
    c2prior.rects.2.size = c2new.rects.2.size ∧
    (DrawPool.add 0 (some c2tex) c2new DrawMode.TriangleStrip c2pool).objects.map
        DrawObject.drawMethods = [[c2prior, c2new]] := by decide

/-- C2 amended: with condition (a) reading "the prior method's source rect
equals the new method's source rect" (not merely its size), the first
prior method of the last DrawObject with an identical explicit
destination satisfying (a) or (b) is removed before the new method is
appended. -/
theorem add_prune_removes_occluded (ps : Nat) (tex : Option Texture) (m : DrawMethod)
    (dm : DrawMode) (p : Pool) (l : List DrawObject) (prev : DrawObject)
    (l1 l2 : List DrawMethod) (pm : DrawMethod)
    (hl : p.objects = l ++ [prev])
    (hdest : m.dest.isSome = true)
    (hdec : prev.drawMethods = l1 ++ pm :: l2)
    (hpm : pm.dest = m.dest ∧
      (prev.state = ⟨ps, tex⟩ ∧ pm.rects.2 = m.rects.2 ∨
       texIsOpaque tex = true ∧ texCanSuper prev.state.texture = true))
    (hfirst : ∀ y ∈ l1, ¬(y.dest = m.dest ∧
      (prev.state = ⟨ps, tex⟩ ∧ y.rects.2 = m.rects.2 ∨
       texIsOpaque tex = true ∧ texCanSuper prev.state.texture = true))) :
    (DrawPool.add ps tex m dm p).objects =
      if prev.state = (⟨ps, tex⟩ : RenderState) then
        l ++ [{ prev with
                 drawMode := DrawMode.Triangles
                 drawMethods := (l1 ++ l2) ++ [m] }]
      else
        l ++ [{ prev with drawMethods := l1 ++ l2 }, mkObject ⟨ps, tex⟩ dm m] := by
  have hx : occludes (decide (prev.state = ⟨ps, tex⟩)) tex prev.state.texture m pm = true := by
    rw [occludes_eq_true_iff]
    refine ⟨hpm.1, ?_⟩
    rcases hpm.2 with ⟨hs, hr⟩ | hoc
    · exact Or.inl ⟨decide_eq_true hs, hr⟩
    · exact Or.inr hoc
  have hnone : ∀ y ∈ l1,
      occludes (decide (prev.state = ⟨ps, tex⟩)) tex prev.state.texture m y = false := by
    intro y hy
    rw [Bool.eq_false_iff]
    intro hcontra
    rw [occludes_eq_true_iff] at hcontra
    apply hfirst y hy
    refine ⟨hcontra.1, ?_⟩
    rcases hcontra.2 with ⟨hs, hr⟩ | hoc
    · exact Or.inl ⟨of_decide_eq_true hs, hr⟩
    · exact Or.inr hoc
  by_cases hst : prev.state = (⟨ps, tex⟩ : RenderState)
  · rw [if_pos hst, add_objects_eq, hl, addObjects_concat, if_pos hst,
      pruneMethods_of_dest_some _ _ _ _ _ hdest, hdec,
      eraseFirst_first_match _ _ _ _ hnone hx]
  · rw [if_neg hst, add_objects_eq, hl, addObjects_concat, if_neg hst,
      pruneMethods_of_dest_some _ _ _ _ _ hdest, hdec,
      eraseFirst_first_match _ _ _ _ hnone hx]

/-- Witness for the amended C2: on the concrete two-method pool the first
method (equal destination, equal source rect, same state) is removed and
the new method appended; the second method survives. -/
theorem add_prune_removes_occluded_witness :
    (DrawPool.add 0 (some c10tex) c10m DrawMode.TriangleStrip c10pool).objects =
      (if c10prev.state = (⟨0, some c10tex⟩ : RenderState) then
        [] ++ [{ c10prev with
                  drawMode := DrawMode.Triangles
                  drawMethods := ([] ++ [c10b]) ++ [c10m] }]
      else
        [] ++ [{ c10prev with drawMethods := [] ++ [c10b] },
               mkObject ⟨0, some c10tex⟩ DrawMode.TriangleStrip c10m]) :=
  add_prune_removes_occluded 0 (some c10tex) c10m DrawMode.TriangleStrip c10pool
    [] c10prev [] [c10b] c10a rfl rfl rfl
    ⟨rfl, Or.inl ⟨rfl, rfl⟩⟩
    (by intro y hy; exact absurd hy (List.not_mem_nil y))

/-- A framed pool with hash 0, used to exhibit the missing hash update. -/
def c3f : PoolFramedData :=
  { hash := 0, status := 0, drawable := true, dest := ⟨0,0,8,8⟩, src := ⟨0,0,8,8⟩,
    hasBeforeDraw := false, hasAfterDraw := false }

def c3pool : Pool := { objects := [], framed := some c3f }

def c3tex : Texture := ⟨3, false, false, false⟩

def c3m : DrawMethod :=
  { mtype := DrawMethodType.DRAW_REPEATED_TEXTURED_RECT, rects := (⟨0,0,4,4⟩, ⟨0,0,4,4⟩) }

/-- C3: `addRepeated` inserts a primitive into a framed pool but leaves the
pool's running content hash untouched, while `add` at the same input
folds the texture and method in — so the hash does not reflect every
DrawMethod contributing to the render target. -/
theorem addRepeated_skips_hash_update :
    c3pool.isFramed = true ∧
    (DrawPool.addRepeated 0 (some c3tex) c3m DrawMode.Triangles c3pool).objects ≠
      c3pool.objects ∧
    (DrawPool.addRepeated 0 (some c3tex) c3m DrawMode.Triangles c3pool).framed = some c3f ∧
    (DrawPool.add 0 (some c3tex) c3m DrawMode.Triangles c3pool).framed =
      some { c3f with hash := updateHash c3f.hash (some c3tex) c3m } ∧
    updateHash c3f.hash (some c3tex) c3m ≠ c3f.hash := by decide

/-- A retained light source and a no-longer-dark LightView state. -/
def c4src : LightSource := ⟨⟨0,0⟩, 5, 3, 0⟩

def c4state : LightViewState :=
  { dark := false, tileSize := 32, globalLightColor := 40, sources := [c4src],
    poolEnabled := true }

def c4stateDark : LightViewState := { c4state with dark := true }

def c4rect : Rct := ⟨0,0,8,8⟩

/-- Counterexample to C4: with darkness false and a source accumulated while
it was still dark, `draw` returns before the clearing step, so it does
not end with an empty source list. -/
theorem lightview_draw_retains_sources_counterexample :
    c4state.dark = false ∧
    (LightView.draw c4rect c4rect c4state).1.sources ≠ [] := by decide

/-- C4 amended: `draw` clears the source list and enables the framed pool
when dark; when darkness is false, `addLightSource` leaves the state
unchanged and `draw` only disables the pool and emits nothing — but
previously accumulated sources stay in place. -/
theorem lightview_dark_gating (dest src : Rct) (s : LightViewState) :
    (s.dark = true →
      (LightView.draw dest src s).1.sources = [] ∧
      (LightView.draw dest src s).1.poolEnabled = true) ∧
    (s.dark = false →
      (LightView.draw dest src s).1 = { s with poolEnabled := false } ∧
      (LightView.draw dest src s).2 = [] ∧
      ∀ op pos l, LightView.addLightSource op pos l s = s) := by
  constructor
  · intro hd
    constructor <;> simp [LightView.draw, hd]
  · intro hd
    refine ⟨?_, ?_, ?_⟩ <;> simp [LightView.draw, LightView.addLightSource, hd]

/-- Witness for the amended C4: a dark state gets its sources cleared; a
non-dark state is left unchanged by `addLightSource`. -/
theorem lightview_dark_gating_witness :
    (c4stateDark.dark = true ∧
      (LightView.draw c4rect c4rect c4stateDark).1.sources = []) ∧
    (c4state.dark = false ∧
      LightView.addLightSource 0 ⟨0,0⟩ ⟨5,3⟩ c4state = c4state) :=
  ⟨⟨rfl, ((lightview_dark_gating c4rect c4rect c4stateDark).1 rfl).1⟩,
   ⟨rfl, ((lightview_dark_gating c4rect c4rect c4state).2 rfl).2.2 0 ⟨0,0⟩ ⟨5,3⟩⟩⟩

/-- C6: a second `addLightSource` call (darkness true) whose position and
color equal the trailing source's does not append: it replaces the last
source's intensity with the maximum of the two, keeping the count. -/
theorem addLightSource_coalesces (op : Nat) (pos : Pt) (l : Light) (s : LightViewState)
    (prev : LightSource) (hd : s.dark = true)
    (hlast : s.sources.getLast? = some prev)
    (hpos : prev.pos = pos) (hcol : prev.color = l.color) :
    (LightView.addLightSource op pos l s).sources =
      s.sources.dropLast ++ [{ prev with intensity := max prev.intensity l.intensity }] ∧
    (LightView.addLightSource op pos l s).sources.length = s.sources.length := by
  have hne : s.sources ≠ [] := by
    intro h
    rw [h] at hlast
    simp at hlast
  have hmain : (LightView.addLightSource op pos l s).sources =
      s.sources.dropLast ++ [{ prev with intensity := max prev.intensity l.intensity }] := by
    simp [LightView.addLightSource, hd, hlast, hpos, hcol]
  refine ⟨hmain, ?_⟩
  rw [hmain]
  have hlen : 0 < s.sources.length := List.length_pos.mpr hne
  simp [List.length_dropLast]
  omega

def c6s0 : LightViewState :=
  { dark := true, tileSize := 1, globalLightColor := 0, sources := [], poolEnabled := false }

def c6s1 : LightViewState := LightView.addLightSource 0 ⟨0,0⟩ ⟨5,3⟩ c6s0

def c6prev : LightSource := ⟨⟨0,0⟩, 5, 3, 0⟩

/-- Witness for C6: the spec's concrete instance — (0,0) color 5 intensity 3
then (0,0) color 5 intensity 7 yields exactly one source, intensity 7. -/
theorem addLightSource_coalesces_witness :
    ((LightView.addLightSource 0 ⟨0,0⟩ ⟨5,7⟩ c6s1).sources =
        c6s1.sources.dropLast ++
          [{ c6prev with intensity := max c6prev.intensity (Light.mk 5 7).intensity }] ∧
      (LightView.addLightSource 0 ⟨0,0⟩ ⟨5,7⟩ c6s1).sources.length =
        c6s1.sources.length) ∧
    (LightView.addLightSource 0 ⟨0,0⟩ ⟨5,7⟩ c6s1).sources = [⟨⟨0,0⟩, 5, 7, 0⟩] :=
  ⟨addLightSource_coalesces 0 ⟨0,0⟩ ⟨5,7⟩ c6s1 c6prev (by decide) (by decide)
      (by decide) (by decide),
    by decide⟩

/-- C5: for a framed pool with a drawable target, a changed content hash
makes the end-of-frame pass bind the target, replay every DrawObject in
order, release, and commit the snapshot; an unchanged hash skips bind and
replay entirely and leaves the snapshot as is.  In both cases the cached
target is composited via its dest/src rectangles with the optional hooks,
and the object list is cleared. -/
theorem drawOne_framed_cache (p : Pool) (f : PoolFramedData)
    (hf : p.framed = some f) (hd : f.drawable = true) :
    ((¬ f.hash = f.status) →
      List.Sublist
        (DrawEvent.bind :: (p.objects.map DrawEvent.replay ++ [DrawEvent.release]))
        (DrawPool.drawOne p).2 ∧
      (DrawPool.drawOne p).1.framed = some { f with status := f.hash }) ∧
    (f.hash = f.status →
      DrawEvent.bind ∉ (DrawPool.drawOne p).2 ∧
      (∀ o, DrawEvent.replay o ∉ (DrawPool.drawOne p).2) ∧
      (DrawPool.drawOne p).1.framed = some f) ∧
    (DrawEvent.composite f.dest f.src ∈ (DrawPool.drawOne p).2 ∧
     (f.hasBeforeDraw = true → DrawEvent.beforeHook ∈ (DrawPool.drawOne p).2) ∧
     (f.hasAfterDraw = true → DrawEvent.afterHook ∈ (DrawPool.drawOne p).2) ∧
     (DrawPool.drawOne p).1.objects = []) := by
  obtain ⟨objs, fr⟩ := p
  simp only [Pool.framed] at hf
  subst hf
  by_cases hh : f.hash = f.status
  · refine ⟨fun hcon => absurd hh hcon, fun _ => ?_, ?_⟩
    · simp only [DrawPool.drawOne, hd, hh]
      refine ⟨?_, ?_, ?_⟩
      · cases hb : f.hasBeforeDraw <;> cases ha : f.hasAfterDraw <;> simp [hb, ha]
      · intro o
        cases hb : f.hasBeforeDraw <;> cases ha : f.hasAfterDraw <;> simp [hb, ha]
      · simp
    · simp only [DrawPool.drawOne, hd, hh]
      refine ⟨?_, fun hb => ?_, fun ha => ?_, ?_⟩
      · simp
      · simp [hb]
      · simp [ha]
      · simp
  · refine ⟨fun _ => ?_, fun hcon => absurd hcon hh, ?_⟩
    · simp only [DrawPool.drawOne, hd, hh]
      constructor
      · simp only [if_true, decide_not]
        refine List.Sublist.cons _ ?_
        exact ((List.sublist_append_left _ _).trans
          (List.sublist_append_left _ _)).trans
          ((List.sublist_append_left _ _).trans (List.sublist_append_left _ _))
      · simp
    · simp only [DrawPool.drawOne, hd, hh]
      refine ⟨?_, fun hb => ?_, fun ha => ?_, ?_⟩
      · simp
      · simp [hb]
      · simp [ha]
      · simp

/-- A framed pool whose hash diverged from the committed snapshot. -/
def c5m : DrawMethod :=
  { mtype := DrawMethodType.DRAW_FILLED_RECT, rects := (⟨0,0,2,2⟩, ⟨0,0,0,0⟩) }

def c5obj : DrawObject := mkObject ⟨0, none⟩ DrawMode.Triangles c5m

def c5fChanged : PoolFramedData :=
  { hash := 1, status := 0, drawable := true, dest := ⟨0,0,4,4⟩, src := ⟨0,0,4,4⟩,
    hasBeforeDraw := false, hasAfterDraw := false }

def c5pChanged : Pool := { objects := [c5obj], framed := some c5fChanged }

/-- A framed pool whose hash equals the committed snapshot. -/
def c5fClean : PoolFramedData := { c5fChanged with hash := 0 }

def c5pClean : Pool := { objects := [c5obj], framed := some c5fClean }

/-- Witness for C5: the dirty pool re-renders and commits, the clean pool
never binds or replays. -/
theorem drawOne_framed_cache_witness :
    (List.Sublist
        (DrawEvent.bind :: (c5pChanged.objects.map DrawEvent.replay ++ [DrawEvent.release]))
        (DrawPool.drawOne c5pChanged).2 ∧
      (DrawPool.drawOne c5pChanged).1.framed =
        some { c5fChanged with status := c5fChanged.hash }) ∧
    (DrawEvent.bind ∉ (DrawPool.drawOne c5pClean).2 ∧
      (∀ o, DrawEvent.replay o ∉ (DrawPool.drawOne c5pClean).2) ∧
      (DrawPool.drawOne c5pClean).1.framed = some c5fClean) :=
  ⟨(drawOne_framed_cache c5pChanged c5fChanged rfl rfl).1 (by decide),
   (drawOne_framed_cache c5pClean c5fClean rfl rfl).2.1 rfl⟩

/-- C7: the second branch of `createPoolF` repeats the `type == MAP` test of
the first, so the Light composition mode is never set for any pool type,
while a MAP-type framed pool gets blending disabled. -/
theorem createPoolF_light_branch_unreachable :
    (∀ t, (DrawPool.createPoolF t).compositionMode = CompositionMode.Normal) ∧
    (DrawPool.createPoolF PoolType.MAP).blendDisabled = true := by
  constructor
  · intro t
    cases t <;> rfl
  · rfl

/-- C8: every add-primitive entry point drops malformed input — empty
destination or source rect, empty texture, a triangle with coincident
points, zero inner line width — returning the pool (object list and, for
framed pools, content hash) unchanged. -/
theorem add_primitives_reject_malformed (c : Ctx) (p : Pool) :
    (∀ dest texture src od,
      dest.isEmpty = true ∨ src.isEmpty = true ∨ texture.texEmpty = true →
      DrawPool.addTexturedRect c dest texture src od p = p) ∧
    (∀ dest texture src,
      dest.isEmpty = true ∨ src.isEmpty = true ∨ texture.texEmpty = true →
      DrawPool.addUpsideDownTexturedRect c dest texture src p = p) ∧
    (∀ dest texture src,
      dest.isEmpty = true ∨ src.isEmpty = true ∨ texture.texEmpty = true →
      DrawPool.addRepeatedTexturedRect c dest texture src p = p) ∧
    (∀ a b d, a = b ∨ a = d ∨ b = d → DrawPool.addFilledTriangle c a b d p = p) ∧
    (∀ dest w, dest.isEmpty = true ∨ w = 0 → DrawPool.addBoundingRect c dest w p = p) ∧
    (∀ dest, dest.isEmpty = true → DrawPool.addFilledRect c dest p = p) ∧
    (∀ dest, dest.isEmpty = true → DrawPool.addRepeatedFilledRect c dest p = p) := by
  refine ⟨?_, ?_, ?_, ?_, ?_, ?_, ?_⟩
  · intro dest texture src od h
    rcases h with h | h | h <;> simp [DrawPool.addTexturedRect, h]
  · intro dest texture src h
    rcases h with h | h | h <;> simp [DrawPool.addUpsideDownTexturedRect, h]
  · intro dest texture src h
    rcases h with h | h | h <;> simp [DrawPool.addRepeatedTexturedRect, h]
  · intro a b d h
    rcases h with h | h | h <;> simp [DrawPool.addFilledTriangle, h]
  · intro dest w h
    rcases h with h | h <;> simp [DrawPool.addBoundingRect, h]
  · intro dest h
    simp [DrawPool.addFilledRect, h]
  · intro dest h
    simp [DrawPool.addRepeatedFilledRect, h]

/-- Witness for C8: an empty destination rect, a degenerate triangle and a
zero line width on a concrete pool, each leaving it untouched. -/
theorem add_primitives_reject_malformed_witness :
    ((⟨0,0,0,4⟩ : Rct).isEmpty = true ∧
      DrawPool.addTexturedRect ⟨false, false, 0, 0⟩ ⟨0,0,0,4⟩ ⟨1, false, false, false⟩
        ⟨0,0,4,4⟩ none (⟨[], none⟩ : Pool) = (⟨[], none⟩ : Pool)) ∧
    ((⟨1,2⟩ : Pt) = (⟨1,2⟩ : Pt) ∧
      DrawPool.addFilledTriangle ⟨false, false, 0, 0⟩ ⟨1,2⟩ ⟨1,2⟩ ⟨3,4⟩
        (⟨[], none⟩ : Pool) = (⟨[], none⟩ : Pool)) ∧
    DrawPool.addBoundingRect ⟨false, false, 0, 0⟩ ⟨0,0,4,4⟩ 0
      (⟨[], none⟩ : Pool) = (⟨[], none⟩ : Pool) :=
  ⟨⟨by decide,
     (add_primitives_reject_malformed ⟨false, false, 0, 0⟩ ⟨[], none⟩).1
       ⟨0,0,0,4⟩ ⟨1, false, false, false⟩ ⟨0,0,4,4⟩ none (Or.inl (by decide))⟩,
   ⟨rfl,
     (add_primitives_reject_malformed ⟨false, false, 0, 0⟩ ⟨[], none⟩).2.2.2.1
       ⟨1,2⟩ ⟨1,2⟩ ⟨3,4⟩ (Or.inl rfl)⟩,
   (add_primitives_reject_malformed ⟨false, false, 0, 0⟩ ⟨[], none⟩).2.2.2.2.1
     ⟨0,0,4,4⟩ 0 (Or.inr rfl)⟩

/-- C9: with multithreading enabled and no thread-local current pool on the
calling thread, every public add-primitive and addAction call returns
immediately without touching the pool. -/
theorem add_calls_noop_off_thread (c : Ctx) (p : Pool)
    (hmt : c.multiThread = true) (hot : c.onThread = false) :
    (∀ dest texture src od, DrawPool.addTexturedRect c dest texture src od p = p) ∧
    (∀ dest texture src, DrawPool.addUpsideDownTexturedRect c dest texture src p = p) ∧
    (∀ dest texture src, DrawPool.addRepeatedTexturedRect c dest texture src p = p) ∧
    (∀ dest, DrawPool.addRepeatedFilledRect c dest p = p) ∧
    (∀ dest, DrawPool.addFilledRect c dest p = p) ∧
    (∀ a b d, DrawPool.addFilledTriangle c a b d p = p) ∧
    (∀ dest w, DrawPool.addBoundingRect c dest w p = p) ∧
    (∀ aid, DrawPool.addAction c aid p = p) := by
  have hoff : c.offThread = true := by simp [Ctx.offThread, hmt, hot]
  refine ⟨?_, ?_, ?_, ?_, ?_, ?_, ?_, ?_⟩ <;> intros
  · simp [DrawPool.addTexturedRect, hoff]
  · simp [DrawPool.addUpsideDownTexturedRect, hoff]
  · simp [DrawPool.addRepeatedTexturedRect, hoff]
  · simp [DrawPool.addRepeatedFilledRect, hoff]
  · simp [DrawPool.addFilledRect, hoff]
  · simp [DrawPool.addFilledTriangle, hoff]
  · simp [DrawPool.addBoundingRect, hoff]
  · simp [DrawPool.addAction, hoff]

/-- Witness for C9: a concrete context with multithreading on and no
thread-local pool, on which a well-formed textured rect and an action are
both dropped. -/
theorem add_calls_noop_off_thread_witness :
    (Ctx.mk true false 0 0).multiThread = true ∧
    (Ctx.mk true false 0 0).onThread = false ∧
    DrawPool.addTexturedRect ⟨true, false, 0, 0⟩ ⟨0,0,4,4⟩ ⟨1, false, false, false⟩
      ⟨0,0,4,4⟩ none (⟨[], none⟩ : Pool) = (⟨[], none⟩ : Pool) ∧
    DrawPool.addAction ⟨true, false, 0, 0⟩ 5 (⟨[], none⟩ : Pool) = (⟨[], none⟩ : Pool) :=
  ⟨rfl, rfl,
   (add_calls_noop_off_thread ⟨true, false, 0, 0⟩ ⟨[], none⟩ rfl rfl).1
     ⟨0,0,4,4⟩ ⟨1, false, false, false⟩ ⟨0,0,4,4⟩ none,
   (add_calls_noop_off_thread ⟨true, false, 0, 0⟩ ⟨[], none⟩ rfl rfl).2.2.2.2.2.2.2 5⟩
